import Mathlib

set_option autoImplicit false

/-!
Verification of the Nepal box-office MongoDB sync pipeline
(`src/mongodb/sync_nepal.py`, `src/mongodb/config.py`).

The Python script is embedded shallowly:
* JSON values parsed by `json.load` become the inductive `JValue`.
* Python `dict.get` (which raises `AttributeError` on non-dict receivers),
  `len`, and iteration become `Except`-valued operations over `JValue`.
* The MongoDB collection, whose `_id` field is a unique key, becomes a
  function `Store : String → Option SyncedDoc`; `replace_one(..., upsert=True)`
  becomes a pointwise function update.
* Exceptions escaping a function are modelled by the `Except.error` branch;
  Python `try/except` blocks that swallow exceptions become total branches.
* `datetime.now(IST)` is an explicit clock parameter `now`.
* Line 93's `set(...)` of movie ids is modelled with Python semantics:
  hashing a list or dict raises `TypeError`, and set membership uses
  Python equality, which identifies `True` with `1` (`pyEqScalar`).
* Whether `collection.replace_one` raises (connectivity, constraint
  violations) is an explicit parameter `persistFails`; which of the nine
  `create_index` calls raise is an explicit parameter `failsAt`.
-/

/-- A JSON value as produced by Python's `json.load`.  Numbers are modelled
as integers; the pipeline only copies numeric field values opaquely and
compares them for truthiness (`0` falsy). -/
inductive JValue where
  | null
  | bool (b : Bool)
  | num (n : Int)
  | str (s : String)
  | arr (elems : List JValue)
  | obj (fields : List (String × JValue))

mutual

/-- Decidable equality of JSON values (Python `==` on parsed values). -/
def decEqJ : (a b : JValue) → Decidable (a = b)
  | .null, .null => isTrue rfl
  | .bool a, .bool b =>
    if h : a = b then isTrue (by rw [h]) else isFalse (fun hc => h (by cases hc; rfl))
  | .num a, .num b =>
    if h : a = b then isTrue (by rw [h]) else isFalse (fun hc => h (by cases hc; rfl))
  | .str a, .str b =>
    if h : a = b then isTrue (by rw [h]) else isFalse (fun hc => h (by cases hc; rfl))
  | .arr as, .arr bs =>
    match decEqLJ as bs with
    | isTrue h => isTrue (by rw [h])
    | isFalse h => isFalse (fun hc => h (by cases hc; rfl))
  | .obj as, .obj bs =>
    match decEqOJ as bs with
    | isTrue h => isTrue (by rw [h])
    | isFalse h => isFalse (fun hc => h (by cases hc; rfl))
  | .null, .bool _ | .null, .num _ | .null, .str _ | .null, .arr _ | .null, .obj _
  | .bool _, .null | .bool _, .num _ | .bool _, .str _ | .bool _, .arr _ | .bool _, .obj _
  | .num _, .null | .num _, .bool _ | .num _, .str _ | .num _, .arr _ | .num _, .obj _
  | .str _, .null | .str _, .bool _ | .str _, .num _ | .str _, .arr _ | .str _, .obj _
  | .arr _, .null | .arr _, .bool _ | .arr _, .num _ | .arr _, .str _ | .arr _, .obj _
  | .obj _, .null | .obj _, .bool _ | .obj _, .num _ | .obj _, .str _ | .obj _, .arr _ =>
    isFalse (fun h => by cases h)

/-- Decidable equality of JSON arrays. -/
def decEqLJ : (a b : List JValue) → Decidable (a = b)
  | [], [] => isTrue rfl
  | [], _ :: _ => isFalse (fun h => by cases h)
  | _ :: _, [] => isFalse (fun h => by cases h)
  | x :: xs, y :: ys =>
    match decEqJ x y with
    | isFalse h => isFalse (fun hc => h (by cases hc; rfl))
    | isTrue h1 =>
      match decEqLJ xs ys with
      | isTrue h2 => isTrue (by rw [h1, h2])
      | isFalse h => isFalse (fun hc => h (by cases hc; rfl))

/-- Decidable equality of JSON object field lists. -/
def decEqOJ : (a b : List (String × JValue)) → Decidable (a = b)
  | [], [] => isTrue rfl
  | [], _ :: _ => isFalse (fun h => by cases h)
  | _ :: _, [] => isFalse (fun h => by cases h)
  | (k1, v1) :: xs, (k2, v2) :: ys =>
    if hk : k1 = k2 then
      match decEqJ v1 v2 with
      | isFalse h => isFalse (fun hc => h (by cases hc; rfl))
      | isTrue h1 =>
        match decEqOJ xs ys with
        | isTrue h2 => isTrue (by rw [hk, h1, h2])
        | isFalse h => isFalse (fun hc => h (by cases hc; rfl))
    else isFalse (fun hc => hk (by cases hc; rfl))

end

instance : DecidableEq JValue := decEqJ

/-- Exceptions the embedded fragment can raise. -/
inductive PyError where
  | attributeError
  | typeError
deriving DecidableEq

namespace JValue

/-- Python truthiness (`bool(v)`) of a JSON value. -/
def truthy : JValue → Bool
  | null => false
  | bool b => b
  | num n => n != 0
  | str s => !(s.isEmpty)
  | arr xs => !(xs.isEmpty)
  | obj fs => !(fs.isEmpty)

/-- Python `v.get(key, dflt)`: returns the stored value when the key is
present (even when that value is `null`), the default when absent, and
raises `AttributeError` when `v` is not a dict. -/
def get (v : JValue) (key : String) (dflt : JValue) : Except PyError JValue :=
  match v with
  | obj fs => .ok ((fs.lookup key).getD dflt)
  | _ => .error .attributeError

/-- Python `len(v)`: defined for strings, lists and dicts; `TypeError`
otherwise. -/
def pyLen : JValue → Except PyError Nat
  | str s => .ok s.length
  | arr xs => .ok xs.length
  | obj fs => .ok fs.length
  | _ => .error .typeError

/-- Python iteration `for x in v`: lists yield their elements, strings yield
one-character strings, dicts yield their keys; `TypeError` otherwise. -/
def pyIter : JValue → Except PyError (List JValue)
  | arr xs => .ok xs
  | str s => .ok (s.toList.map (fun c => str c.toString))
  | obj fs => .ok (fs.map (fun p => str p.1))
  | _ => .error .typeError

end JValue

/-- `NepalMongoDBSync.format_date_code`: `date_str.replace("-", "")`,
removing every dash. -/
def format_date_code (s : String) : String :=
  String.mk (s.toList.filter (fun c => c != '-'))

/-- `format_date_code` applied to an arbitrary JSON value, as in
`self.format_date_code(data.get("date", ""))`: `str.replace` exists only on
strings, any other value raises `AttributeError`. -/
def format_date_code_j : JValue → Except PyError String
  | .str s => .ok (format_date_code s)
  | _ => .error .attributeError

/-- Sequential effectful map, mirroring a Python loop that processes list
elements in order and propagates the first raised exception. -/
def mapE {α : Type} (f : JValue → Except PyError α) : List JValue → Except PyError (List α)
  | [] => .ok []
  | x :: xs =>
    match f x with
    | .error e => .error e
    | .ok y =>
      match mapE f xs with
      | .error e => .error e
      | .ok ys => .ok (y :: ys)

/-- The `show_doc` built for one entry of `shows` (lines 108-131 of
`sync_nepal.py`): thirteen `get`-with-default projections, with `date` and
`time` renamed to `show_date`/`show_time`, then `error` appended only when
truthy and `skipped` appended as literal `True` only when truthy. -/
def mkShowDoc (s : JValue) : Except PyError (List (String × JValue)) := do
  let show_id ← s.get "show_id" JValue.null
  let movie_id ← s.get "movie_id" JValue.null
  let movie_name ← s.get "movie_name" JValue.null
  let venue ← s.get "venue" JValue.null
  let theatre ← s.get "theatre" JValue.null
  let show_date ← s.get "date" JValue.null
  let show_time ← s.get "time" JValue.null
  let seats ← s.get "seats" (JValue.num 0)
  let sold ← s.get "sold" (JValue.num 0)
  let reserved ← s.get "reserved" (JValue.num 0)
  let available ← s.get "available" (JValue.num 0)
  let gross ← s.get "gross" (JValue.num 0)
  let occupancy_percent ← s.get "occupancy_percent" (JValue.num 0)
  let base : List (String × JValue) :=
    [("show_id", show_id), ("movie_id", movie_id), ("movie_name", movie_name),
     ("venue", venue), ("theatre", theatre), ("show_date", show_date),
     ("show_time", show_time), ("seats", seats), ("sold", sold),
     ("reserved", reserved), ("available", available), ("gross", gross),
     ("occupancy_percent", occupancy_percent)]
  let err ← s.get "error" JValue.null
  let base1 := if err.truthy then base ++ [("error", err)] else base
  let skip ← s.get "skipped" JValue.null
  let base2 := if skip.truthy then base1 ++ [("skipped", JValue.bool true)] else base1
  return base2

/-- Python `==` restricted to the hashable JSON scalars that can enter the
movie-id set: `True == 1` and `False == 0` hold across `bool` and numbers,
strings compare as strings, `None` only equals itself, values of other
shapes are unequal. -/
def pyEqScalar : JValue → JValue → Bool
  | .null, .null => true
  | .bool a, .bool b => a == b
  | .bool a, .num n => (if a then (1 : Int) else 0) == n
  | .num n, .bool a => n == (if a then (1 : Int) else 0)
  | .num a, .num b => a == b
  | .str a, .str b => a == b
  | _, _ => false

/-- Whether `hash(v)` succeeds in Python: lists and dicts are unhashable
(`set.add` raises `TypeError` on them), every other JSON value is
hashable. -/
def hashableB : JValue → Bool
  | .arr _ => false
  | .obj _ => false
  | _ => true

/-- `set.add(v)` on a set represented as its list of distinct members:
a no-op when an equal (Python `==`) member is present. -/
def addToPySet (v : JValue) (acc : List JValue) : List JValue :=
  if acc.any (fun w => pyEqScalar w v) then acc else acc ++ [v]

/-- Pure tail of the set construction: insert the listed values one by
one. -/
def pySetFold (acc : List JValue) : List JValue → List JValue
  | [] => acc
  | v :: rest => pySetFold (addToPySet v acc) rest

/-- Line 93's `set(show.get("movie_id") for show in shows if
show.get("movie_id"))`, one pass over the shows: for each show the `get`
runs (raising `AttributeError` on a non-dict show), falsy ids are filtered
out, and each truthy id is hashed — `TypeError` for a list or dict id —
then inserted into the set under Python equality. -/
def movieIdSet (acc : List JValue) : List JValue → Except PyError (List JValue)
  | [] => .ok acc
  | s :: rest =>
    match s.get "movie_id" JValue.null with
    | .error e => .error e
    | .ok v =>
      if v.truthy then
        if hashableB v then movieIdSet (addToPySet v acc) rest
        else .error .typeError
      else movieIdSet acc rest

/-- The single per-date document persisted to the `nepal_detailed`
collection. -/
structure SyncedDoc where
  id : String
  date : String
  last_updated : JValue
  synced_at : Nat
  total_shows : Nat
  total_movies : Nat
  shows : List (List (String × JValue))
deriving DecidableEq

/-- The distinct validation-failure exits of `sync_detailed` (each is a
distinct `return False` site with its own message). -/
inductive FailReason
  | noData
  | noShows
  | invalidDate
deriving DecidableEq

/-- Outcome of the validation/transformation part of `sync_detailed`
(everything before the `replace_one` call). -/
inductive BuildOutcome
  | fail (r : FailReason)
  | doc (d : SyncedDoc)
deriving DecidableEq

/-- Overall outcome of one `sync_detailed` run. -/
inductive SyncResult
  | success
  | failed (r : FailReason)
  | persistError
deriving DecidableEq

/-- The MongoDB collection keyed by its unique `_id`. -/
def Store := String → Option SyncedDoc

/-- The effect of `collection.replace_one({"_id": k}, d, upsert=True)`:
the document at key `k` is replaced (or inserted), all others untouched. -/
def updateStore (st : Store) (k : String) (d : SyncedDoc) : Store :=
  fun k2 => if k2 = k then some d else st k2

/-- An empty collection. -/
def emptyStore : Store := fun _ => none

/-- Lines 69-131 of `sync_detailed`: validation and construction of the
per-date document.  `data` is the result of `load_json` (`none` when the
file was missing or unparseable).  Follows the source order exactly:
`if not data` / `shows` fetch / `if not shows` / date-code derivation /
`lastUpdated` fetch / `if not date_code` / `len(shows)` (the console
report) / unique-movie count / per-show records. -/
def buildDoc (now : Nat) (data : Option JValue) : Except PyError BuildOutcome :=
  match data with
  | none => .ok (.fail .noData)
  | some d =>
    if d.truthy = false then .ok (.fail .noData) else
    match d.get "shows" (.arr []) with
    | .error e => .error e
    | .ok shows =>
      if shows.truthy = false then .ok (.fail .noShows) else
      match d.get "date" (.str "") with
      | .error e => .error e
      | .ok dateJ =>
        match format_date_code_j dateJ with
        | .error e => .error e
        | .ok date_code =>
          match d.get "lastUpdated" (.str "") with
          | .error e => .error e
          | .ok last_updated =>
            if date_code.isEmpty then .ok (.fail .invalidDate) else
            match shows.pyLen with
            | .error e => .error e
            | .ok _ =>
              match shows.pyIter with
              | .error e => .error e
              | .ok showList =>
                match movieIdSet [] showList with
                | .error e => .error e
                | .ok idSet =>
                  match mapE mkShowDoc showList with
                  | .error e => .error e
                  | .ok showDocs =>
                    .ok (.doc {
                      id := "nepal_" ++ date_code,
                      date := date_code,
                      last_updated := last_updated,
                      synced_at := now,
                      total_shows := showList.length,
                      total_movies := idSet.length,
                      shows := showDocs })

/-- `NepalMongoDBSync.sync_detailed`: validation/transformation followed by
the guarded `replace_one` upsert.  `persistFails` tells whether the storage
call raises (the surrounding `try/except` turns that into `return False`). -/
def sync_detailed (persistFails : Bool) (now : Nat) (data : Option JValue)
    (st : Store) : Except PyError (SyncResult × Store) :=
  match buildDoc now data with
  | .error e => .error e
  | .ok (.fail r) => .ok (.failed r, st)
  | .ok (.doc d) =>
    if persistFails then .ok (.persistError, st)
    else .ok (.success, updateStore st d.id d)

/-- The nine indexes requested by `create_indexes`, in source order. -/
def indexSpecs : List (String × Int) :=
  [("date", -1), ("last_updated", -1), ("synced_at", -1),
   ("shows.movie_id", 1), ("shows.movie_name", 1), ("shows.venue", 1),
   ("shows.show_date", -1), ("shows.occupancy_percent", -1), ("shows.gross", -1)]

/-- Sequential execution of the index creations inside the single
`try` block of `create_indexes`: each creation is attempted in order; the
first raising creation ends the block (the `except` handler catches it and
prints a warning), so later creations are not attempted.  Returns the list
of attempted index positions and whether a warning was caught. -/
def attemptIndexes (failsAt : Nat → Bool) : List Nat → List Nat × Bool
  | [] => ([], false)
  | i :: rest =>
    if failsAt i then ([i], true)
    else
      let r := attemptIndexes failsAt rest
      (i :: r.1, r.2)

/-- `NepalMongoDBSync.create_indexes`: runs the nine creations inside one
`try/except`; never raises. -/
def create_indexes (failsAt : Nat → Bool) : List Nat × Bool :=
  attemptIndexes failsAt (List.range indexSpecs.length)

/-- `NepalMongoDBSync.sync_all`: locate the newest detailed file
(`located = none` when `find_latest_detailed_file` returned `None`,
otherwise `some` of the `load_json` result), sync it, and create indexes
only on success.  Returns the boolean outcome, the final store, and the
list of index creations attempted. -/
def sync_all (persistFails : Bool) (failsAt : Nat → Bool) (now : Nat)
    (located : Option (Option JValue)) (st : Store) :
    Except PyError (Bool × Store × List Nat) :=
  match located with
  | none => .ok (false, st, [])
  | some data =>
    match sync_detailed persistFails now data st with
    | .error e => .error e
    | .ok (r, st2) =>
      if r = SyncResult.success then .ok (true, st2, (create_indexes failsAt).1)
      else .ok (false, st2, [])

/-! ### Helper lemmas -/

theorem mapE_ok_length {α : Type} {f : JValue → Except PyError α} :
    ∀ {xs : List JValue} {ys : List α}, mapE f xs = .ok ys → ys.length = xs.length := by
  intro xs
  induction xs with
  | nil =>
    intro ys h
    simp only [mapE] at h
    cases h
    rfl
  | cons x xs ih =>
    intro ys h
    simp only [mapE] at h
    cases hf : f x with
    | error e => rw [hf] at h; cases h
    | ok y =>
      rw [hf] at h
      cases hm : mapE f xs with
      | error e => rw [hm] at h; cases h
      | ok ys2 =>
        rw [hm] at h
        cases h
        simp [ih hm]

theorem mapE_ok_get {α : Type} {f : JValue → Except PyError α} :
    ∀ {xs : List JValue} {ys : List α}, mapE f xs = .ok ys →
      ∀ i (h1 : i < xs.length) (h2 : i < ys.length),
        f (xs.get ⟨i, h1⟩) = .ok (ys.get ⟨i, h2⟩) := by
  intro xs
  induction xs with
  | nil =>
    intro ys h i h1 h2
    exact absurd h1 (by simp)
  | cons x xs ih =>
    intro ys h i h1 h2
    simp only [mapE] at h
    cases hf : f x with
    | error e => rw [hf] at h; cases h
    | ok y =>
      rw [hf] at h
      cases hm : mapE f xs with
      | error e => rw [hm] at h; cases h
      | ok ys2 =>
        rw [hm] at h
        cases h
        cases i with
        | zero => exact hf
        | succ j => exact ih hm j (Nat.lt_of_succ_lt_succ h1) (Nat.lt_of_succ_lt_succ h2)

theorem mapE_total {α : Type} {f : JValue → Except PyError α} :
    ∀ {xs : List JValue}, (∀ x ∈ xs, ∃ y, f x = .ok y) → ∃ ys, mapE f xs = .ok ys := by
  intro xs
  induction xs with
  | nil => intro _; exact ⟨[], rfl⟩
  | cons x xs ih =>
    intro h
    obtain ⟨y, hy⟩ := h x (by simp)
    obtain ⟨ys, hys⟩ := ih (fun z hz => h z (by simp [hz]))
    exact ⟨y :: ys, by simp [mapE, hy, hys]⟩

/-- Symbolic execution of `buildDoc` on the success path: a produced
document determines every intermediate value of lines 69-131. -/
theorem buildDoc_doc_inv {now : Nat} {d : JValue} {doc : SyncedDoc}
    (hb : buildDoc now (some d) = .ok (.doc doc)) :
    ∃ shows dateJ code lu showList idSet showDocs,
      d.truthy = true ∧
      d.get "shows" (.arr []) = .ok shows ∧ shows.truthy = true ∧
      d.get "date" (.str "") = .ok dateJ ∧
      format_date_code_j dateJ = .ok code ∧
      d.get "lastUpdated" (.str "") = .ok lu ∧
      code.isEmpty = false ∧
      shows.pyIter = .ok showList ∧
      movieIdSet [] showList = .ok idSet ∧
      mapE mkShowDoc showList = .ok showDocs ∧
      doc = { id := "nepal_" ++ code, date := code, last_updated := lu, synced_at := now,
              total_shows := showList.length,
              total_movies := idSet.length,
              shows := showDocs } := by
  simp only [buildDoc] at hb
  split at hb
  · cases hb
  next ht =>
    split at hb
    next e heq => cases hb
    next shows hshows =>
      split at hb
      · cases hb
      next hst =>
        split at hb
        next e heq => cases hb
        next dateJ hdate =>
          split at hb
          next e heq => cases hb
          next code hcode =>
            split at hb
            next e heq => cases hb
            next lu hlu =>
              split at hb
              · cases hb
              next hce =>
                split at hb
                next e heq => cases hb
                next n hlen =>
                  split at hb
                  next e heq => cases hb
                  next showList hiter =>
                    split at hb
                    next e heq => cases hb
                    next idSet hset =>
                      split at hb
                      next e heq => cases hb
                      next showDocs hdocs =>
                        cases hb
                        exact ⟨shows, dateJ, code, lu, showList, idSet, showDocs,
                          by simpa using ht, hshows, by simpa using hst, hdate, hcode,
                          hlu, by simpa using hce, hiter, hset, hdocs, rfl⟩

/-- A successfully built document is persisted by a single store update. -/
theorem sync_detailed_of_doc {now : Nat} {data : Option JValue} {doc : SyncedDoc}
    (hb : buildDoc now data = .ok (.doc doc)) (st : Store) :
    sync_detailed false now data st = .ok (.success, updateStore st doc.id doc) := by
  simp [sync_detailed, hb]

/-- A successful `sync_detailed` run means the transform produced a
document, the persist call did not raise, and the final store is the input
store with exactly that document upserted. -/
theorem sync_detailed_success_inv {pf : Bool} {now : Nat} {data : Option JValue}
    {st st2 : Store} (h : sync_detailed pf now data st = .ok (.success, st2)) :
    pf = false ∧ ∃ doc, buildDoc now data = .ok (.doc doc) ∧
      st2 = updateStore st doc.id doc := by
  unfold sync_detailed at h
  split at h
  next e heq => cases h
  next r heq => cases h
  next doc2 heq =>
    split at h
    next => cases h
    next hpf =>
      cases h
      exact ⟨by simpa using hpf, doc2, heq, rfl⟩

/-! ### Concrete fixtures used by witnesses -/

/-- A concrete snapshot for 2026-01-13 with one show (`movie_id` "A"). -/
def snapA : JValue := .obj [("date", .str "2026-01-13"),
  ("shows", .arr [.obj [("movie_id", .str "A"), ("seats", .num 100)]])]

/-- A second snapshot for the same date with different show data. -/
def snapB : JValue := .obj [("date", .str "2026-01-13"),
  ("shows", .arr [.obj [("movie_id", .str "B"), ("sold", .num 3)]])]

/-- The store left by one `sync_detailed` run (the input store when the run
raised). -/
def storeAfter (pf : Bool) (now : Nat) (data : Option JValue) (st : Store) : Store :=
  match sync_detailed pf now data st with
  | .ok (_, st2) => st2
  | .error _ => st

/-- The document built by a successful transform (a dummy document
otherwise). -/
def docOf (now : Nat) (d : JValue) : SyncedDoc :=
  match buildDoc now (some d) with
  | .ok (.doc doc) => doc
  | _ => { id := "", date := "", last_updated := .null, synced_at := 0,
           total_shows := 0, total_movies := 0, shows := [] }

/-! ### Claims -/

/-- C1: syncing a snapshot persists via a single atomic replace-with-upsert
keyed by the deterministic id `nepal_` + date with dashes removed; syncing
the same date twice leaves exactly one document at that id whose contents
are fully determined by the latest transform (the persisted value does not
depend on the previous store contents — full replace, never a merge), and
all other ids are untouched. -/
theorem claim1_atomic_replace_upsert (snap1 snap2 : JValue) (dB : String)
    (now1 now2 : Nat) (st st1 st2 : Store) (rA : SyncResult)
    (_h1 : sync_detailed false now1 (some snap1) st = .ok (rA, st1))
    (h2 : sync_detailed false now2 (some snap2) st1 = .ok (.success, st2))
    (hd : snap2.get "date" (.str "") = .ok (.str dB)) :
    ∃ doc : SyncedDoc,
      buildDoc now2 (some snap2) = .ok (.doc doc) ∧
      doc.id = "nepal_" ++ format_date_code dB ∧
      st2 doc.id = some doc ∧
      (∀ k, k ≠ doc.id → st2 k = st1 k) ∧
      (∀ stX : Store, sync_detailed false now2 (some snap2) stX =
        .ok (.success, updateStore stX doc.id doc)) := by
  obtain ⟨-, doc, hbd, hst2⟩ := sync_detailed_success_inv h2
  obtain ⟨shows, dateJ, code, lu, showList, idSet, showDocs,
    ht, hshows, hstT, hdate, hcode, hlu, hce, hiter, hset, hdocs, hdoc⟩ :=
    buildDoc_doc_inv hbd
  have hdj : dateJ = .str dB := Except.ok.inj (hdate.symm.trans hd)
  subst hdj
  have hc2 : format_date_code dB = code := Except.ok.inj hcode
  refine ⟨doc, hbd, ?_, ?_, ?_, ?_⟩
  · rw [hdoc, hc2]
  · rw [hst2]
    simp [updateStore]
  · intro k hk
    rw [hst2]
    simp [updateStore, hk]
  · intro stX
    exact sync_detailed_of_doc hbd stX

/-- Witness for C1 at concrete inputs: syncing `snapB` after `snapA` for
the same date replaces the document wholesale. -/
theorem claim1_atomic_replace_upsert_witness :
    sync_detailed false 5 (some snapB)
        (storeAfter false 4 (some snapA) emptyStore) =
      .ok (.success, updateStore (storeAfter false 4 (some snapA) emptyStore)
        (docOf 5 snapB).id (docOf 5 snapB)) := by
  obtain ⟨doc, hbd, hid, hlook, hoth, hall⟩ :=
    claim1_atomic_replace_upsert snapA snapB "2026-01-13" 4 5 emptyStore
      (storeAfter false 4 (some snapA) emptyStore)
      (storeAfter false 5 (some snapB) (storeAfter false 4 (some snapA) emptyStore))
      .success rfl rfl rfl
  have hdoc : doc = docOf 5 snapB := by
    have h2 : buildDoc 5 (some snapB) = .ok (.doc (docOf 5 snapB)) := rfl
    exact BuildOutcome.doc.inj (Except.ok.inj (hbd.symm.trans h2))
  rw [← hdoc]
  exact hall _

/-- C2: the transform emits exactly one ShowRecord per input show, in the
original order: `total_shows` is the input length, the output `shows` array
has the same length, and the i-th record is the projection of the i-th
input show. -/
theorem claim2_transform_preserves_shows (now : Nat) (d : JValue) (doc : SyncedDoc)
    (xs : List JValue)
    (hb : buildDoc now (some d) = .ok (.doc doc))
    (hs : d.get "shows" (.arr []) = .ok (.arr xs)) :
    doc.total_shows = xs.length ∧ doc.shows.length = xs.length ∧
    ∀ i (h1 : i < xs.length), ∃ h2 : i < doc.shows.length,
      mkShowDoc (xs.get ⟨i, h1⟩) = .ok (doc.shows.get ⟨i, h2⟩) := by
  obtain ⟨shows, dateJ, code, lu, showList, idSet, showDocs,
    ht, hshows, hstT, hdate, hcode, hlu, hce, hiter, hset, hdocs, hdoc⟩ :=
    buildDoc_doc_inv hb
  have hsx : shows = .arr xs := Except.ok.inj (hshows.symm.trans hs)
  subst hsx
  have hsl : xs = showList := Except.ok.inj hiter
  subst hsl
  have hlen := mapE_ok_length hdocs
  subst hdoc
  exact ⟨rfl, hlen, fun i h1 =>
    ⟨by simpa [hlen] using h1, mapE_ok_get hdocs i h1 (by simpa [hlen] using h1)⟩⟩

/-- Witness for C2 at a concrete snapshot with one show. -/
theorem claim2_transform_preserves_shows_witness :
    (docOf 5 snapB).total_shows = 1 ∧ (docOf 5 snapB).shows.length = 1 := by
  obtain ⟨ha, hb, -⟩ :=
    claim2_transform_preserves_shows 5 snapB (docOf 5 snapB)
      [.obj [("movie_id", .str "B"), ("sold", .num 3)]] rfl rfl
  exact ⟨ha, hb⟩

/-- The string-valued entries of a list of JSON values. -/
def strIds (vs : List JValue) : List String :=
  vs.filterMap (fun v => match v with | .str s => some s | _ => none)

/-- On a list of values that are each `null` or a string (the shape taken
by per-show `movie_id` lookups), Python-truthiness filtering keeps exactly
the non-empty strings. -/
theorem filter_truthy_eq_map_str :
    ∀ {vs : List JValue}, (∀ v ∈ vs, v = JValue.null ∨ ∃ s, v = JValue.str s) →
      vs.filter JValue.truthy =
        ((strIds vs).filter (fun s => !s.isEmpty)).map JValue.str := by
  intro vs
  induction vs with
  | nil => intro _; rfl
  | cons v vs ih =>
    intro h
    have hrest := ih (fun z hz => h z (by simp [hz]))
    rcases h v (by simp) with hnull | ⟨s, hstr⟩
    · subst hnull
      simpa [strIds, JValue.truthy, List.filter_cons, List.filterMap_cons] using hrest
    · subst hstr
      by_cases he : s.isEmpty <;>
        simp [strIds, JValue.truthy, List.filter_cons, List.filterMap_cons, he, hrest]

/-- First-occurrence set construction over plain strings. -/
def strSetFold (acc : List String) : List String → List String
  | [] => acc
  | s :: rest => strSetFold (if s ∈ acc then acc else acc ++ [s]) rest

/-- On string values Python set insertion is membership-guarded
insertion. -/
theorem addToPySet_str (s : String) (acc : List String) :
    addToPySet (JValue.str s) (acc.map JValue.str) =
      (if s ∈ acc then acc else acc ++ [s]).map JValue.str := by
  unfold addToPySet
  by_cases hmem : s ∈ acc
  · rw [if_pos hmem, if_pos (List.any_eq_true.mpr
      ⟨JValue.str s, List.mem_map_of_mem _ hmem, by simp [pyEqScalar]⟩)]
  · have hne : ¬((acc.map JValue.str).any
        (fun w => pyEqScalar w (JValue.str s)) = true) := by
      intro hany
      obtain ⟨w, hw, hpe⟩ := List.any_eq_true.mp hany
      obtain ⟨a, ha, rfl⟩ := List.mem_map.mp hw
      simp only [pyEqScalar, beq_iff_eq] at hpe
      exact hmem (hpe ▸ ha)
    rw [if_neg hmem, if_neg hne, List.map_append]
    rfl

/-- Folding strings into a Python set is the string-level fold. -/
theorem pySetFold_map_str :
    ∀ (l acc : List String),
      pySetFold (acc.map JValue.str) (l.map JValue.str) =
        (strSetFold acc l).map JValue.str := by
  intro l
  induction l with
  | nil => intro acc; rfl
  | cons s rest ih =>
    intro acc
    simp only [List.map_cons, pySetFold, strSetFold, addToPySet_str]
    exact ih _

/-- The string-level set fold never introduces duplicates. -/
theorem strSetFold_nodup :
    ∀ (l acc : List String), acc.Nodup → (strSetFold acc l).Nodup := by
  intro l
  induction l with
  | nil => intro acc h; exact h
  | cons s rest ih =>
    intro acc h
    simp only [strSetFold]
    by_cases hmem : s ∈ acc
    · rw [if_pos hmem]
      exact ih acc h
    · rw [if_neg hmem]
      refine ih _ ?_
      simp [List.nodup_append, h, hmem]

/-- The string-level set fold collects exactly the members of the
accumulator and the input. -/
theorem strSetFold_toFinset :
    ∀ (l acc : List String),
      (strSetFold acc l).toFinset = acc.toFinset ∪ l.toFinset := by
  intro l
  induction l with
  | nil => intro acc; simp [strSetFold]
  | cons s rest ih =>
    intro acc
    simp only [strSetFold]
    by_cases hmem : s ∈ acc
    · rw [if_pos hmem, ih]
      ext a
      simp only [Finset.mem_union, List.mem_toFinset, List.mem_cons]
      constructor
      · tauto
      · rintro (ha | rfl | ha)
        · tauto
        · exact Or.inl hmem
        · tauto
    · rw [if_neg hmem, ih]
      ext a
      simp only [Finset.mem_union, List.mem_toFinset, List.mem_append,
        List.mem_singleton, List.mem_cons]
      tauto

/-- When every truthy movie id is hashable, line 93's set pass succeeds
and equals the pure fold of the truthy ids into the set. -/
theorem movieIdSet_eq_mapE :
    ∀ {xs mids : List JValue} (acc : List JValue),
      mapE (fun s => s.get "movie_id" JValue.null) xs = .ok mids →
      (∀ v ∈ mids, v.truthy = true → hashableB v = true) →
      movieIdSet acc xs = .ok (pySetFold acc (mids.filter JValue.truthy)) := by
  intro xs
  induction xs with
  | nil =>
    intro mids acc h _
    simp only [mapE] at h
    cases h
    rfl
  | cons x xs ih =>
    intro mids acc h hh
    simp only [mapE] at h
    cases hf : x.get "movie_id" JValue.null with
    | error e => rw [hf] at h; cases h
    | ok v =>
      rw [hf] at h
      cases hm : mapE (fun s => s.get "movie_id" JValue.null) xs with
      | error e => rw [hm] at h; cases h
      | ok ms =>
        rw [hm] at h
        cases h
        cases hv : v.truthy with
        | false =>
          simp only [movieIdSet, hf, hv, Bool.false_eq_true, if_false,
            List.filter_cons]
          exact ih acc hm (fun w hw hwt => hh w (List.mem_cons_of_mem _ hw) hwt)
        | true =>
          have hhash := hh v (List.mem_cons_self _ _) hv
          simp only [movieIdSet, pySetFold, hf, hv, hhash, if_true,
            List.filter_cons]
          exact ih (addToPySet v acc) hm
            (fun w hw hwt => hh w (List.mem_cons_of_mem _ hw) hwt)

/-- C3: `total_movies` is the cardinality of the set of distinct non-empty
`movie_id` strings across all shows: duplicates collapse and shows whose
`movie_id` is absent (hence `null` after lookup) or the empty string are
not counted. -/
theorem claim3_total_movies_distinct (now : Nat) (d : JValue) (doc : SyncedDoc)
    (xs mids : List JValue)
    (hb : buildDoc now (some d) = .ok (.doc doc))
    (hs : d.get "shows" (.arr []) = .ok (.arr xs))
    (hm : mapE (fun s => s.get "movie_id" JValue.null) xs = .ok mids)
    (hstr : ∀ v ∈ mids, v = JValue.null ∨ ∃ s, v = JValue.str s) :
    doc.total_movies = ((strIds mids).filter (fun s => !s.isEmpty)).toFinset.card := by
  obtain ⟨shows, dateJ, code, lu, showList, idSet, showDocs,
    ht, hshows, hstT, hdate, hcode, hlu, hce, hiter, hset, hdocs, hdoc⟩ :=
    buildDoc_doc_inv hb
  have hsx : shows = .arr xs := Except.ok.inj (hshows.symm.trans hs)
  subst hsx
  have hsl : xs = showList := Except.ok.inj hiter
  subst hsl
  have hhash : ∀ v ∈ mids, v.truthy = true → hashableB v = true := by
    intro v hv _
    rcases hstr v hv with rfl | ⟨s, rfl⟩ <;> rfl
  have hset2 : movieIdSet [] xs = .ok (pySetFold [] (mids.filter JValue.truthy)) :=
    movieIdSet_eq_mapE [] hm hhash
  have hid : idSet = pySetFold [] (mids.filter JValue.truthy) :=
    Except.ok.inj (hset.symm.trans hset2)
  rw [hdoc]
  show idSet.length = _
  rw [hid, filter_truthy_eq_map_str hstr]
  have hm1 := pySetFold_map_str ((strIds mids).filter (fun s => !s.isEmpty)) []
  simp only [List.map_nil] at hm1
  rw [hm1, List.length_map]
  have hnd := strSetFold_nodup ((strIds mids).filter (fun s => !s.isEmpty)) []
    List.nodup_nil
  rw [← List.toFinset_card_of_nodup hnd, strSetFold_toFinset]
  simp

/-- A concrete snapshot with duplicate, absent and empty movie ids. -/
def snapC3 : JValue := .obj [("date", .str "2026-01-13"),
  ("shows", .arr [.obj [("movie_id", .str "A"), ("seats", .num 5)],
                  .obj [("movie_id", .str "A")], .obj [],
                  .obj [("movie_id", .str "")]])]

/-- Witness for C3: duplicate ids collapse, absent and empty ids are not
counted. -/
theorem claim3_total_movies_distinct_witness :
    (docOf 9 snapC3).total_movies =
      ((strIds [.str "A", .str "A", .null, .str ""]).filter
        (fun s => !s.isEmpty)).toFinset.card := by
  refine claim3_total_movies_distinct 9 snapC3 (docOf 9 snapC3)
    [.obj [("movie_id", .str "A"), ("seats", .num 5)],
     .obj [("movie_id", .str "A")], .obj [], .obj [("movie_id", .str "")]]
    [.str "A", .str "A", .null, .str ""] rfl rfl rfl ?_
  intro v hv
  simp only [List.mem_cons, List.not_mem_nil, or_false] at hv
  rcases hv with rfl | rfl | rfl | rfl
  · exact Or.inr ⟨"A", rfl⟩
  · exact Or.inr ⟨"A", rfl⟩
  · exact Or.inl rfl
  · exact Or.inr ⟨"", rfl⟩

/-- `fs.get(k, dflt)` on a dict that is known to be a dict. -/
def lookD (fs : List (String × JValue)) (k : String) (dflt : JValue) : JValue :=
  (fs.lookup k).getD dflt

/-- The thirteen unconditional fields of a show record, in source order. -/
def mkBase (fs : List (String × JValue)) : List (String × JValue) :=
  [("show_id", lookD fs "show_id" .null), ("movie_id", lookD fs "movie_id" .null),
   ("movie_name", lookD fs "movie_name" .null), ("venue", lookD fs "venue" .null),
   ("theatre", lookD fs "theatre" .null), ("show_date", lookD fs "date" .null),
   ("show_time", lookD fs "time" .null), ("seats", lookD fs "seats" (.num 0)),
   ("sold", lookD fs "sold" (.num 0)), ("reserved", lookD fs "reserved" (.num 0)),
   ("available", lookD fs "available" (.num 0)), ("gross", lookD fs "gross" (.num 0)),
   ("occupancy_percent", lookD fs "occupancy_percent" (.num 0))]

/-- Normal form of `mkShowDoc` on a dict input: the base fields plus the
conditional `error` and `skipped` entries. -/
theorem mkShowDoc_obj (fs : List (String × JValue)) :
    mkShowDoc (.obj fs) = .ok
      (if (lookD fs "skipped" .null).truthy then
        (if (lookD fs "error" .null).truthy then
          mkBase fs ++ [("error", lookD fs "error" .null)] else mkBase fs)
          ++ [("skipped", JValue.bool true)]
       else
        (if (lookD fs "error" .null).truthy then
          mkBase fs ++ [("error", lookD fs "error" .null)] else mkBase fs)) := rfl

/-- C4, counterexample to the claim as stated: a show whose `seats` field
is present but `null` produces a record with `seats = null`, not `0`
(`dict.get(key, 0)` only substitutes the default when the key is absent). -/
theorem claim4_defaults_counterexample :
    (mkShowDoc (JValue.obj [("seats", JValue.null)])).map
        (fun l => l.lookup "seats") = .ok (some JValue.null) ∧
      JValue.null ≠ JValue.num 0 := by
  constructor
  · rfl
  · decide

/-- C4 as amended: for every dict show, the six numeric fields default to
`0` when the key is *missing* (a present `null` is copied through
unchanged); `date` and `time` are emitted as `show_date`/`show_time` and
not under their old names; `error` is included exactly when truthy, with
its source value; `skipped` is included exactly when truthy, as literal
`true`. -/
theorem claim4_show_record_projection (fs : List (String × JValue)) :
    ∃ sd, mkShowDoc (.obj fs) = .ok sd ∧
      sd.lookup "seats" = some ((fs.lookup "seats").getD (JValue.num 0)) ∧
      sd.lookup "sold" = some ((fs.lookup "sold").getD (JValue.num 0)) ∧
      sd.lookup "reserved" = some ((fs.lookup "reserved").getD (JValue.num 0)) ∧
      sd.lookup "available" = some ((fs.lookup "available").getD (JValue.num 0)) ∧
      sd.lookup "gross" = some ((fs.lookup "gross").getD (JValue.num 0)) ∧
      sd.lookup "occupancy_percent" =
        some ((fs.lookup "occupancy_percent").getD (JValue.num 0)) ∧
      sd.lookup "show_date" = some ((fs.lookup "date").getD JValue.null) ∧
      sd.lookup "show_time" = some ((fs.lookup "time").getD JValue.null) ∧
      sd.lookup "date" = none ∧ sd.lookup "time" = none ∧
      sd.lookup "error" = (if ((fs.lookup "error").getD JValue.null).truthy then
        some ((fs.lookup "error").getD JValue.null) else none) ∧
      sd.lookup "skipped" = (if ((fs.lookup "skipped").getD JValue.null).truthy then
        some (JValue.bool true) else none) := by
  refine ⟨_, mkShowDoc_obj fs, ?_⟩
  cases he : ((fs.lookup "error").getD JValue.null).truthy <;>
    cases hk : ((fs.lookup "skipped").getD JValue.null).truthy <;>
    simp only [lookD, he, hk, if_true, if_false] <;>
    exact ⟨rfl, rfl, rfl, rfl, rfl, rfl, rfl, rfl, rfl, rfl, rfl, rfl⟩

/-- Witness for C4 (amended): a show lacking `gross` and
`occupancy_percent` gets `0` for both. -/
theorem claim4_show_record_projection_witness :
    (mkShowDoc (JValue.obj [("seats", JValue.num 5)])).map
        (fun l => (l.lookup "gross", l.lookup "occupancy_percent")) =
      .ok (some (JValue.num 0), some (JValue.num 0)) := by
  obtain ⟨sd, hsd, h1, h2, h3, h4, h5, h6, h7, h8, h9, h10, h11, h12⟩ :=
    claim4_show_record_projection [("seats", JValue.num 5)]
  rw [hsd]
  show Except.ok (sd.lookup "gross", sd.lookup "occupancy_percent") = _
  rw [h5, h6]
  rfl

/-- C5: date-code derivation is pure dash-removal (`"2026-01-13"` maps to
`"20260113"`); a snapshot that reaches the date check (truthy content,
non-empty shows) whose date field is missing (the lookup defaults to `""`)
or whose derived code is empty fails with the invalid-date exit before any
persist call, leaving the store unchanged. -/
theorem claim5_invalid_date_no_persist (pf : Bool) (now : Nat) (st : Store)
    (d shows : JValue) (s : String)
    (ht : d.truthy = true)
    (hs : d.get "shows" (.arr []) = .ok shows) (hsT : shows.truthy = true)
    (hd : d.get "date" (.str "") = .ok (.str s))
    (he : format_date_code s = "") :
    sync_detailed pf now (some d) st = .ok (.failed .invalidDate, st) ∧
    format_date_code "2026-01-13" = "20260113" ∧
    (∀ t : String, (format_date_code t).toList = t.toList.filter (fun c => c != '-')) := by
  refine ⟨?_, rfl, fun t => rfl⟩
  cases d with
  | null => cases hs
  | bool b => cases hs
  | num n => cases hs
  | str s2 => cases hs
  | arr xs => cases hs
  | obj fs =>
    have hsv : (fs.lookup "shows").getD (.arr []) = shows := Except.ok.inj hs
    have hdv : (fs.lookup "date").getD (.str "") = .str s := Except.ok.inj hd
    simp only [sync_detailed, buildDoc, JValue.get, hsv, hdv, ht, hsT, he,
      format_date_code_j, Bool.true_eq_false, if_false, String.isEmpty_iff, if_true]

/-- Witness for C5: a snapshot whose date is all dashes derives an empty
code and is rejected with the store untouched. -/
theorem claim5_invalid_date_no_persist_witness :
    sync_detailed false 3
        (some (.obj [("date", .str "---"), ("shows", .arr [.obj []])]))
        emptyStore = .ok (.failed .invalidDate, emptyStore) :=
  (claim5_invalid_date_no_persist false 3 emptyStore
    (.obj [("date", .str "---"), ("shows", .arr [.obj []])])
    (.arr [.obj []]) "---" rfl rfl rfl rfl rfl).1

/-- C6: a snapshot whose `shows` array is empty (or absent, which defaults
to empty) is rejected before any persist attempt and the store is left
exactly as it was; the failure is the no-shows exit when the content is
truthy, and the earlier no-data exit when the content itself is falsy. -/
theorem claim6_empty_shows_rejected (pf : Bool) (now : Nat) (st : Store) (d : JValue)
    (h : d.get "shows" (.arr []) = .ok (.arr [])) :
    (d.truthy = true → sync_detailed pf now (some d) st = .ok (.failed .noShows, st)) ∧
    (d.truthy = false → sync_detailed pf now (some d) st = .ok (.failed .noData, st)) := by
  cases d with
  | null => cases h
  | bool b => cases h
  | num n => cases h
  | str s2 => cases h
  | arr xs => cases h
  | obj fs =>
    have hsv : (fs.lookup "shows").getD (.arr []) = .arr [] := Except.ok.inj h
    constructor
    · intro ht
      simp only [sync_detailed, buildDoc, JValue.get, hsv, ht]
      simp [JValue.truthy]
    · intro ht
      simp only [sync_detailed, buildDoc, JValue.get, hsv, ht]
      simp

/-- Witness for C6: a truthy snapshot with an empty shows array is
rejected with the no-shows exit and an unchanged store. -/
theorem claim6_empty_shows_rejected_witness :
    sync_detailed false 2 (some (.obj [("shows", .arr [])])) emptyStore =
      .ok (.failed .noShows, emptyStore) :=
  (claim6_empty_shows_rejected false 2 emptyStore (.obj [("shows", .arr [])]) rfl).1 rfl

/-- C10: any artifact whose content parses to a falsy JSON value (empty
object, empty array, `false`, `0`, `null`, empty string) is rejected at
the `if not data` check with no persist attempt, producing exactly the
same outcome as a parse failure (`load_json` returning `None`). -/
theorem claim10_falsy_content_like_parse_failure (pf : Bool) (now : Nat) (st : Store)
    (v : JValue) (hv : v.truthy = false) :
    sync_detailed pf now (some v) st = .ok (.failed .noData, st) ∧
    sync_detailed pf now none st = .ok (.failed .noData, st) := by
  refine ⟨?_, rfl⟩
  simp only [sync_detailed, buildDoc, hv]
  simp

/-- Witness for C10 at the falsy value `{}`. -/
theorem claim10_falsy_content_like_parse_failure_witness :
    sync_detailed false 1 (some (JValue.obj [])) emptyStore =
        .ok (.failed .noData, emptyStore) ∧
      sync_detailed false 1 none emptyStore = .ok (.failed .noData, emptyStore) :=
  claim10_falsy_content_like_parse_failure false 1 emptyStore (JValue.obj []) rfl

/-- If no creation in the block raises, all are attempted and no warning is
printed. -/
theorem attemptIndexes_all_ok (f : Nat → Bool) :
    ∀ l : List Nat, (∀ i ∈ l, f i = false) → attemptIndexes f l = (l, false) := by
  intro l
  induction l with
  | nil => intro _; rfl
  | cons i rest ih =>
    intro h
    have hi := h i (by simp)
    simp [attemptIndexes, hi, ih (fun j hj => h j (by simp [hj]))]

/-- The first raising creation ends the `try` block: everything before it
was attempted, it was attempted, and nothing after it runs. -/
theorem attemptIndexes_first_fail (f : Nat → Bool) :
    ∀ (l1 : List Nat) (i : Nat) (l2 : List Nat),
      (∀ j ∈ l1, f j = false) → f i = true →
      attemptIndexes f (l1 ++ i :: l2) = (l1 ++ [i], true) := by
  intro l1
  induction l1 with
  | nil => intro i l2 _ hi; simp [attemptIndexes, hi]
  | cons a l1 ih =>
    intro i l2 h hi
    have ha := h a (by simp)
    simp [attemptIndexes, ha, ih i l2 (fun j hj => h j (by simp [hj])) hi]

/-- `List.range n` splits at any position below `n`. -/
theorem range_split (i : Nat) :
    ∀ n : Nat, i < n → ∃ l2, List.range n = List.range i ++ i :: l2 := by
  intro n
  induction n with
  | zero => intro h; omega
  | succ m ih =>
    intro h
    rcases Nat.lt_or_ge i m with hlt | hge
    · obtain ⟨l2, hl⟩ := ih hlt
      exact ⟨l2 ++ [m], by rw [List.range_succ, hl]; simp⟩
    · have him : i = m := by omega
      subst him
      exact ⟨[], by rw [List.range_succ]⟩

/-- C8, counterexample to the claim as stated: when creating the first
index raises, the remaining eight creations are *not* attempted — the
single `try/except` wrapping all nine `create_index` calls jumps to the
handler, so only index 0 is attempted (`[0]`, not all of `0..8`), although
the failure is caught as a warning. -/
theorem claim8_counterexample :
    create_indexes (fun i => decide (i = 0)) = ([0], true) ∧
      ([0] : List Nat) ≠ List.range 9 := by
  constructor
  · rfl
  · decide

/-- C8 as amended: each index-creation failure is caught inside
`create_indexes` and surfaces only as a warning (the function always
returns instead of raising); when no creation fails all nine are attempted;
when the first failure is at position `i`, the prior successful creations
`0..i-1` are unaffected and `i` itself is attempted, but the remaining
creations are skipped. -/
theorem claim8_index_failure_warning (f : Nat → Bool) :
    ((∀ j, j < 9 → f j = false) → create_indexes f = (List.range 9, false)) ∧
    (∀ i, i < 9 → f i = true → (∀ j, j < i → f j = false) →
      create_indexes f = (List.range (i + 1), true)) := by
  constructor
  · intro h
    exact attemptIndexes_all_ok f (List.range 9) (fun j hj => h j (List.mem_range.mp hj))
  · intro i hi hfi hmin
    obtain ⟨l2, hl⟩ := range_split i 9 hi
    show attemptIndexes f (List.range 9) = _
    rw [hl, List.range_succ]
    exact attemptIndexes_first_fail f (List.range i) i l2
      (fun j hj => hmin j (List.mem_range.mp hj)) hfi

/-- Witness for C8 (amended): a failure at index 3 is caught as a warning;
indexes 0..2 were already created and index 4..8 are skipped. -/
theorem claim8_index_failure_warning_witness :
    create_indexes (fun i => decide (i = 3)) = (List.range (3 + 1), true) :=
  (claim8_index_failure_warning (fun i => decide (i = 3))).2 3 (by omega) (by decide)
    (fun j hj => by simp only [decide_eq_false_iff_not]; omega)

/-- C7: `sync_all` is true exactly when location succeeded, load and
transform-validation produced a document, and the persist call did not
raise; the boolean outcome and the final store never depend on which index
creations fail (index failures cannot turn success into failure), and
index creation is attempted only in a run whose outcome is success. -/
theorem claim7_outcome_iff_pipeline_success (pf : Bool) (f g : Nat → Bool) (now : Nat)
    (loc : Option (Option JValue)) (st : Store) :
    ((sync_all pf f now loc st).map (fun x => (x.1, x.2.1)) =
      (sync_all pf g now loc st).map (fun x => (x.1, x.2.1))) ∧
    (∀ b st2 att, sync_all pf f now loc st = .ok (b, st2, att) →
      ((b = true ↔ ∃ data doc, loc = some data ∧
          buildDoc now data = .ok (.doc doc) ∧ pf = false) ∧
        (att ≠ [] → b = true))) := by
  cases loc with
  | none =>
    refine ⟨rfl, ?_⟩
    intro b st2 att h
    cases h
    simp
  | some data =>
    cases hsd : sync_detailed pf now data st with
    | error e =>
      refine ⟨by simp [sync_all, hsd], ?_⟩
      intro b st2 att h
      simp [sync_all, hsd] at h
    | ok p =>
      obtain ⟨r, st3⟩ := p
      cases r with
      | success =>
        constructor
        · simp [sync_all, hsd, Except.map]
        · intro b st2 att h
          have hall : sync_all pf f now (some data) st =
              .ok (true, st3, (create_indexes f).1) := by simp [sync_all, hsd]
          have hc := hall.symm.trans h
          cases hc
          obtain ⟨hpf, doc, hbd, -⟩ := sync_detailed_success_inv hsd
          constructor
          · constructor
            · intro _
              exact ⟨data, doc, rfl, hbd, hpf⟩
            · intro _
              rfl
          · intro _
            rfl
      | failed r0 =>
        constructor
        · simp [sync_all, hsd, Except.map]
        · intro b st2 att h
          have hall : sync_all pf f now (some data) st = .ok (false, st3, []) := by
            simp [sync_all, hsd]
          have hc := hall.symm.trans h
          cases hc
          constructor
          · constructor
            · intro h0
              cases h0
            · rintro ⟨data0, doc0, hl, hbd, hpf⟩
              cases hl
              subst hpf
              rw [sync_detailed_of_doc hbd st] at hsd
              cases hsd
          · intro hne
            exact absurd rfl hne
      | persistError =>
        constructor
        · simp [sync_all, hsd, Except.map]
        · intro b st2 att h
          have hall : sync_all pf f now (some data) st = .ok (false, st3, []) := by
            simp [sync_all, hsd]
          have hc := hall.symm.trans h
          cases hc
          constructor
          · constructor
            · intro h0
              cases h0
            · rintro ⟨data0, doc0, hl, hbd, hpf⟩
              cases hl
              subst hpf
              rw [sync_detailed_of_doc hbd st] at hsd
              cases hsd
          · intro hne
            exact absurd rfl hne

/-- Witness for C7: a successful run of the concrete snapshot gives a true
outcome whatever the index creations do, and attempts all nine indexes. -/
theorem claim7_outcome_iff_pipeline_success_witness :
    (true = true ↔ ∃ data doc, (some (some snapA) : Option (Option JValue)) = some data ∧
        buildDoc 0 data = .ok (.doc doc) ∧ false = false) ∧
      ((List.range 9 : List Nat) ≠ [] → true = true) :=
  (claim7_outcome_iff_pipeline_success false (fun _ => false) (fun _ => true) 0
    (some (some snapA)) emptyStore).2 true
    (storeAfter false 0 (some snapA) emptyStore) (List.range 9) rfl

/-- Whether a JSON value is a string. -/
def isStrB : JValue → Bool
  | .str _ => true
  | _ => false

/-- Per-show shape under which neither the set pass of line 93 nor the
record loop can raise: the show is a dict whose `movie_id` entry
(defaulted to `null`) is falsy or hashable. -/
def showWFB : JValue → Bool
  | .obj gs =>
    !((gs.lookup "movie_id").getD JValue.null).truthy ||
      hashableB ((gs.lookup "movie_id").getD JValue.null)
  | _ => false

/-- Structural shape of parsed content under which `sync_detailed` cannot
raise: falsy content, or a dict whose `shows` entry (defaulted to `[]`) is
falsy, or is an array of dicts — each with a falsy or hashable `movie_id` —
while the `date` entry (defaulted to `""`) is a string. -/
def contentWF (d : JValue) : Bool :=
  if d.truthy then
    match d with
    | .obj fs =>
      if ((fs.lookup "shows").getD (.arr [])).truthy then
        (match (fs.lookup "shows").getD (.arr []) with
         | .arr xs => xs.all showWFB
         | _ => false) && isStrB ((fs.lookup "date").getD (.str ""))
      else true
    | _ => false
  else true

/-- The set pass of line 93 succeeds on well-shaped shows. -/
theorem movieIdSet_total :
    ∀ (xs : List JValue) (acc : List JValue), xs.all showWFB = true →
      ∃ idSet, movieIdSet acc xs = .ok idSet := by
  intro xs
  induction xs with
  | nil => intro acc _; exact ⟨acc, rfl⟩
  | cons x xs ih =>
    intro acc hall
    rw [List.all_cons, Bool.and_eq_true] at hall
    obtain ⟨hx, hrest⟩ := hall
    cases x with
    | obj gs =>
      simp only [showWFB, Bool.or_eq_true, Bool.not_eq_eq_eq_not, Bool.not_true] at hx
      cases hv : ((gs.lookup "movie_id").getD JValue.null).truthy with
      | false =>
        simp [movieIdSet, JValue.get, hv]
        exact ih acc hrest
      | true =>
        have hhash : hashableB ((gs.lookup "movie_id").getD JValue.null) = true := by
          rcases hx with hx | hx
          · rw [hv] at hx; cases hx
          · exact hx
        simp [movieIdSet, JValue.get, hv, hhash]
        exact ih _ hrest
    | null => simp [showWFB] at hx
    | bool b => simp [showWFB] at hx
    | num n => simp [showWFB] at hx
    | str s => simp [showWFB] at hx
    | arr l => simp [showWFB] at hx

/-- On well-shaped dict content the transform never raises. -/
theorem buildDoc_obj_wf (now : Nat) (fs : List (String × JValue)) (xs : List JValue)
    (ds : String)
    (ht : (JValue.obj fs).truthy = true)
    (hsw : (fs.lookup "shows").getD (.arr []) = .arr xs)
    (hstT : (JValue.arr xs).truthy = true)
    (hobj : xs.all showWFB = true)
    (hdt : (fs.lookup "date").getD (.str "") = .str ds) :
    ∃ out, buildDoc now (some (JValue.obj fs)) = .ok out := by
  obtain ⟨idSet, hset⟩ := movieIdSet_total xs [] hobj
  obtain ⟨docs, hdocs⟩ : ∃ docs, mapE mkShowDoc xs = .ok docs := by
    apply mapE_total
    intro x hx
    have hx2 := List.all_eq_true.mp hobj x hx
    cases x <;> simp [showWFB] at hx2 ⊢
    exact ⟨_, mkShowDoc_obj _⟩
  cases hce : (format_date_code ds).isEmpty with
  | true =>
    refine ⟨.fail .invalidDate, ?_⟩
    simp [buildDoc, JValue.get, ht, hsw, hstT, hdt, format_date_code_j, hce]
  | false =>
    have hdocOut : buildDoc now (some (JValue.obj fs)) = .ok (.doc
        { id := "nepal_" ++ format_date_code ds, date := format_date_code ds,
          last_updated := (fs.lookup "lastUpdated").getD (.str ""), synced_at := now,
          total_shows := xs.length,
          total_movies := idSet.length,
          shows := docs }) := by
      have hg1 : (JValue.obj fs).get "shows" (.arr []) = .ok (.arr xs) := by
        simp [JValue.get, hsw]
      have hg2 : (JValue.obj fs).get "date" (.str "") = .ok (.str ds) := by
        simp [JValue.get, hdt]
      have hg3 : (JValue.obj fs).get "lastUpdated" (.str "") =
          .ok ((fs.lookup "lastUpdated").getD (.str "")) := by simp [JValue.get]
      simp only [buildDoc, hg1, hg2, hg3, ht, hstT, format_date_code_j,
        hce, JValue.pyLen, JValue.pyIter, hset, hdocs]
      rw [if_neg (by simp [ht]), if_neg (by simp [hstT]), if_neg (by simp [hce])]
    exact ⟨_, hdocOut⟩

/-- C9, counterexample to the claim as stated: an artifact whose content
parses to a non-empty JSON array is truthy, passes the `if not data`
check, and then `data.get("shows", [])` raises `AttributeError`, which
escapes `sync_detailed` and `sync_all` instead of being converted into a
boolean outcome; likewise, a dict snapshot whose show carries an
unhashable (list-valued) truthy `movie_id` passes every earlier check and
then raises an escaping `TypeError` at line 93's `set()` construction. -/
theorem claim9_counterexample :
    sync_detailed false 0 (some (.arr [JValue.null])) emptyStore =
        .error .attributeError ∧
      sync_all false (fun _ => false) 0 (some (some (.arr [JValue.null]))) emptyStore =
        .error .attributeError ∧
      sync_detailed false 0 (some (.obj [("date", .str "2026-01-13"),
          ("shows", .arr [.obj [("movie_id", .arr [.num 1])]])])) emptyStore =
        .error .typeError := ⟨rfl, rfl, rfl⟩

/-- C9 as amended: faults escape the engine for structurally malformed
truthy content — a non-empty array raises `AttributeError`, an unhashable
truthy `movie_id` raises `TypeError` — but for every load failure and
every artifact whose parsed content is structurally well-formed (falsy, or
a dict whose `shows` is falsy or an array of dicts each with a falsy or
hashable `movie_id` and whose `date` is a string) the engine handles all
errors internally and returns a definitive outcome. -/
theorem claim9_wellformed_no_fault (d : JValue) (pf : Bool) (now : Nat) (st : Store)
    (hw : contentWF d = true) :
    (∃ r st2, sync_detailed pf now (some d) st = .ok (r, st2)) ∧
    sync_detailed pf now none st = .ok (.failed .noData, st) := by
  refine ⟨?_, rfl⟩
  cases ht : d.truthy with
  | false =>
    refine ⟨.failed .noData, st, ?_⟩
    simp [sync_detailed, buildDoc, ht]
  | true =>
    cases d with
    | null => simp [JValue.truthy] at ht
    | bool b => simp [contentWF, ht] at hw
    | num n => simp [contentWF, ht] at hw
    | str s => simp [contentWF, ht] at hw
    | arr l => simp [contentWF, ht] at hw
    | obj fs =>
      rw [contentWF, ht, if_pos rfl] at hw
      cases hstT : ((fs.lookup "shows").getD (.arr [])).truthy with
      | false =>
        refine ⟨.failed .noShows, st, ?_⟩
        simp [sync_detailed, buildDoc, JValue.get, ht, hstT]
      | true =>
        rw [hstT, if_pos rfl, Bool.and_eq_true] at hw
        obtain ⟨hobj, hstr⟩ := hw
        cases hsw : (fs.lookup "shows").getD (.arr []) with
        | arr xs =>
          rw [hsw] at hobj
          cases hdt : (fs.lookup "date").getD (.str "") with
          | str ds =>
            obtain ⟨out, hout⟩ := buildDoc_obj_wf now fs xs ds ht hsw
              (hsw ▸ hstT) hobj hdt
            cases out with
            | fail r => exact ⟨.failed r, st, by simp [sync_detailed, hout]⟩
            | doc dd =>
              cases pf with
              | true => exact ⟨.persistError, st, by simp [sync_detailed, hout]⟩
              | false => exact ⟨.success, updateStore st dd.id dd, by simp [sync_detailed, hout]⟩
          | null => rw [hdt] at hstr; cases hstr
          | bool b => rw [hdt] at hstr; cases hstr
          | num n => rw [hdt] at hstr; cases hstr
          | arr l2 => rw [hdt] at hstr; cases hstr
          | obj fs2 => rw [hdt] at hstr; cases hstr
        | null => rw [hsw] at hobj; cases hobj
        | bool b => rw [hsw] at hobj; cases hobj
        | num n => rw [hsw] at hobj; cases hobj
        | str s => rw [hsw] at hobj; cases hobj
        | obj fs2 => rw [hsw] at hobj; cases hobj

/-- Witness for C9 (amended): the engine returns a definitive outcome on a
concrete well-formed snapshot and on a load failure. -/
theorem claim9_wellformed_no_fault_witness :
    (∃ r st2, sync_detailed false 11 (some snapB) emptyStore = .ok (r, st2)) ∧
      sync_detailed false 11 none emptyStore = .ok (.failed .noData, emptyStore) :=
  claim9_wellformed_no_fault snapB false 11 emptyStore rfl
